import Mathlib

/-!
# etagger: `Input::Input` (inference/cc/src/Input.cc)

A shallow embedding of the constructor and destructor of `Input`, the class
that turns one bucket of token lines into four `DT_FLOAT` tensors.

Modelling decisions, each taken from the source text:

* `Config` and `Vocab` are declared outside `Input.cc`; the embedding takes
  what the constructor calls on them (`GetWordLength`, `GetEtcDim`, `Split`,
  `GetWid`) as fields of a structure, so every theorem holds for every
  configuration and every vocabulary.
* `vocab.Split(line, tokens)` fills an out-parameter; it is a function from
  the line and the vector passed in to the vector afterwards. The constructor
  always passes a freshly declared, empty vector.
* The tensors are created with `new` and released with `delete`; the heap is
  an explicit value that records which buffers are live, and what an
  allocation finds in the memory it receives.
* `bucket[i]`, `tokens[0..3]` and `data_[i]` are indexing operations without a
  bounds check in C++; the embedding gives each of them an explicit
  out-of-range branch that ends the run with `Exn.out_of_range`.
* The calls made on the vocabulary and the stores into `sentence_word_ids`
  are recorded, in program order, in a list of events.
* The bucket length is a natural number: the data model bounds the sentence
  length ("bounded, small"), so the conversion of `bucket.size()` to the
  member `max_sentence_length` and the counter `int i` do not wrap.
-/

namespace Etagger

/-! ## Values -/

/-- Element of a `DT_FLOAT` tensor: a finite float whose value is an integer,
or any other float, given by its bit pattern. -/
inductive F32 where
  | integral (v : Int)
  | other (bits : Nat)
  deriving DecidableEq, Repr

/-- Number of binary digits of `a`; the first argument bounds the number of
halvings and is `a` itself at the call. -/
def bitLength : Nat → Nat → Nat
  | 0, _ => 0
  | fuel + 1, a => if a = 0 then 0 else bitLength fuel (a / 2) + 1

/-- Round a natural number to 24 significant bits, ties to even: the value of
the single-precision float nearest to it. -/
def roundNat24 (a : Nat) : Nat :=
  let k := bitLength a a
  if k ≤ 24 then a
  else
    let s := k - 24
    let q := a / 2 ^ s
    let r := a % 2 ^ s
    let half := 2 ^ (s - 1)
    let q1 := if r > half ∨ (r = half ∧ q % 2 = 1) then q + 1 else q
    q1 * 2 ^ s

/-- The implicit conversion of `data_[i] = wid`: an `int` becomes the nearest
`float`. -/
def floatOfInt (n : Int) : F32 :=
  if n < 0 then .integral (-(roundNat24 n.natAbs : Int)) else .integral (roundNat24 n.natAbs)

/-- Number of elements of a tensor of the given shape. -/
def numElements : List Nat → Nat
  | [] => 1
  | d :: ds => d * numElements ds

/-- A `tensorflow::Tensor` of type `DT_FLOAT` living on the heap: the address
the `new` expression returned, the shape, and the `flat<float>()` view of its
buffer. -/
structure Tensor where
  addr : Nat
  shape : List Nat
  data : List F32
  deriving DecidableEq, Repr

/-- The heap as far as tensors are concerned. `live` lists the addresses of
the tensors created with `new` and not yet deleted, `next` is the address the
next `new` returns, and `uninit a j` is the float an allocation at address `a`
finds at flat index `j` of its buffer (the constructor `Tensor(DT_FLOAT, shape)`
does not write the buffer). -/
structure Heap where
  live : List Nat
  next : Nat
  uninit : Nat → Nat → F32

/-- Evaluate `new tensorflow::Tensor(tensorflow::DT_FLOAT, shape)`. -/
def Heap.newTensor (h : Heap) (shape : List Nat) : Tensor × Heap :=
  ({ addr := h.next, shape := shape,
     data := (List.range (numElements shape)).map (h.uninit h.next) },
   { h with live := h.next :: h.live, next := h.next + 1 })

/-- Evaluate `delete p` for the tensor at address `a`. -/
def Heap.delete (h : Heap) (a : Nat) : Heap :=
  { h with live := h.live.erase a }

/-- Evaluate `t->flat<float>().data()[i] = v`; `none` when `i` is not an index
of the buffer. -/
def Tensor.setFlat (t : Tensor) (i : Nat) (v : F32) : Option Tensor :=
  if i < t.data.length then some { t with data := t.data.set i v } else none

/-! ## Collaborators -/

/-- What the constructor reads from `Config`: the two dimensions. A
`TensorShape` has no negative dimension, so they are natural numbers. -/
structure Config where
  GetWordLength : Nat
  GetEtcDim : Nat

/-- What the constructor calls on `Vocab`. `Split line tokens` is the content
of the out-parameter after `Split(line, tokens)`; `GetWid word` is the `int`
returned for `word`. -/
structure Vocab where
  Split : String → List String → List String
  GetWid : String → Int

/-! ## The object and its constructor -/

/-- The data members of `Input`; the four pointers are represented by the
tensors they point to. -/
structure Input where
  max_sentence_length : Nat
  sentence_word_ids : Tensor
  sentence_wordchr_ids : Tensor
  sentence_pos_ids : Tensor
  sentence_etcs : Tensor
  deriving DecidableEq, Repr

/-- What ends a run of the constructor early: the `runtime_error` thrown at
line 25, or an index out of range. -/
inductive Exn where
  | runtime_error (what : String)
  | out_of_range
  deriving DecidableEq, Repr

instance instDecidableEqExcept {ε α : Type} [DecidableEq ε] [DecidableEq α] :
    DecidableEq (Except ε α)
  | .ok a, .ok b => if h : a = b then isTrue (by rw [h]) else isFalse (fun e => h (by cases e; rfl))
  | .error a, .error b =>
    if h : a = b then isTrue (by rw [h]) else isFalse (fun e => h (by cases e; rfl))
  | .ok _, .error _ => isFalse (fun e => by cases e)
  | .error _, .ok _ => isFalse (fun e => by cases e)

/-- Observable steps of the loop, in program order. -/
inductive Event where
  | bucketAt (i : Nat)
  | split (line : String)
  | getWid (word : String)
  | store (i : Nat) (v : F32)
  deriving DecidableEq, Repr

/-- The loop of lines 20-39, `for( int i=0; i < max_sentence_length; i++ )`,
with `n` iterations still to run and `i` the current index. Returns how the
loop ended and the events of these iterations. -/
def Input.loop (vocab : Vocab) (bucket : List String) :
    Nat → Nat → Input → Except Exn Input × List Event
  | 0, _, self => (.ok self, [])
  | n + 1, i, self =>
    match bucket[i]? with
    | none => (.error .out_of_range, [.bucketAt i])
    | some line =>
      let tokens := vocab.Split line []
      if tokens.length ≠ 4 then
        (.error (.runtime_error "input tokens must be size 4"), [.bucketAt i, .split line])
      else
        match tokens[0]?, tokens[1]?, tokens[2]?, tokens[3]? with
        | some word, some _pos, some _chunk, some _tag =>
          let wid := vocab.GetWid word
          match self.sentence_word_ids.setFlat i (floatOfInt wid) with
          | none =>
            (.error .out_of_range,
              [.bucketAt i, .split line, .getWid word, .store i (floatOfInt wid)])
          | some t =>
            let r := Input.loop vocab bucket n (i + 1) { self with sentence_word_ids := t }
            (r.1, [.bucketAt i, .split line, .getWid word, .store i (floatOfInt wid)] ++ r.2)
        | _, _, _, _ => (.error .out_of_range, [.bucketAt i, .split line])

/-- Lines 9-18: the object right after the four allocations, and the heap
then. -/
def Input.alloc (config : Config) (bucket : List String) (h : Heap) : Input × Heap :=
  let L := bucket.length
  let shape1 := [1, L]
  let a := h.newTensor shape1
  let shape2 := [1, L, config.GetWordLength]
  let b := a.2.newTensor shape2
  let c := b.2.newTensor shape1
  let shape3 := [1, L, config.GetEtcDim]
  let d := c.2.newTensor shape3
  ({ max_sentence_length := L, sentence_word_ids := a.1, sentence_wordchr_ids := b.1,
     sentence_pos_ids := c.1, sentence_etcs := d.1 }, d.2)

/-- A run of the constructor: how it ended, the heap afterwards, and the
events. -/
structure Run where
  result : Except Exn Input
  heap : Heap
  trace : List Event

/-- The constructor `Input::Input(config, vocab, bucket)` started on heap `h`. When the loop
throws, the exception leaves the constructor: the locals `line`, `tokens` and
the shapes are destroyed, and since the object was never completely
constructed `~Input` does not run for it; the members are plain pointers, so
nothing else touches the heap. -/
def Input.ctor (config : Config) (vocab : Vocab) (bucket : List String) (h : Heap) : Run :=
  let s := Input.alloc config bucket h
  let r := Input.loop vocab bucket s.1.max_sentence_length 0 s.1
  { result := r.1, heap := s.2, trace := r.2 }

/-- The destructor `Input::~Input()`, lines 42-48: the four pointers are non-null from line 18
on, so each `delete` runs. -/
def Input.dtor (self : Input) (h : Heap) : Heap :=
  (((h.delete self.sentence_word_ids.addr).delete self.sentence_wordchr_ids.addr).delete
    self.sentence_pos_ids.addr).delete self.sentence_etcs.addr

/-! ## A sample vocabulary -/

/-- Cut a character sequence at whitespace; `cur` holds the characters of the
field under construction, last one first. -/
def splitChars : List Char → List Char → List String
  | cur, [] => if cur = [] then [] else [String.mk cur.reverse]
  | cur, c :: cs =>
    if c = ' ' ∨ c = '\t' ∨ c = '\n' ∨ c = '\r' then
      (if cur = [] then splitChars [] cs else String.mk cur.reverse :: splitChars [] cs)
    else splitChars (c :: cur) cs

/-- Modelled from the spec: `Vocab::Split` is outside `Input.cc`; the lines are
"4 whitespace-separated fields", so the sample vocabulary appends the
whitespace-separated fields of the line to the out-parameter. -/
def splitFields (line : String) (tokens : List String) : List String :=
  tokens ++ splitChars [] line.data

/-- The vocabulary of the scenario: `dog` is 42, `barks` is 7, and any other
word gets the id `unk`. -/
def sampleVocab (unk : Int) : Vocab :=
  { Split := splitFields
    GetWid := fun w => if w = "dog" then 42 else if w = "barks" then 7 else unk }

/-- A heap with no live tensor, whose memory holds the bit pattern `0xDEAD`
everywhere. -/
def emptyHeap : Heap := { live := [], next := 0, uninit := fun _ _ => .other 0xDEAD }

/-- A configuration with word length 3 and etc dimension 2. -/
def sampleConfig : Config := { GetWordLength := 3, GetEtcDim := 2 }

/-! ## Auxiliary functions used to state and prove the properties -/

/-- The word of a line: the first field `Split` yields for it (the empty string
stands in when `Split` yields no field at all). -/
def wordOf (vocab : Vocab) (line : String) : String :=
  ((vocab.Split line [])[0]?).getD ""

/-- The floats the loop stores for a list of well-formed lines. -/
def wordIdsOf (vocab : Vocab) (lines : List String) : List F32 :=
  lines.map (fun line => floatOfInt (vocab.GetWid (wordOf vocab line)))

/-- The events of the iterations `i, i+1, ...` over a list of well-formed
lines. -/
def eventsOf (vocab : Vocab) : Nat → List String → List Event
  | _, [] => []
  | i, line :: rest =>
    [.bucketAt i, .split line, .getWid (wordOf vocab line),
      .store i (floatOfInt (vocab.GetWid (wordOf vocab line)))] ++ eventsOf vocab (i + 1) rest

/-- The lines passed to `Split`, in call order. -/
def splitCalls (tr : List Event) : List String :=
  tr.filterMap (fun e => match e with | .split l => some l | _ => none)

/-- The words passed to `GetWid`, in call order. -/
def getWidCalls (tr : List Event) : List String :=
  tr.filterMap (fun e => match e with | .getWid w => some w | _ => none)

/-- The stores into `sentence_word_ids`, in program order. -/
def stores (tr : List Event) : List (Nat × F32) :=
  tr.filterMap (fun e => match e with | .store i v => some (i, v) | _ => none)

/-- The indices at which the bucket is read, in program order. -/
def bucketReads (tr : List Event) : List Nat :=
  tr.filterMap (fun e => match e with | .bucketAt i => some i | _ => none)

/-- The object with the buffer of `sentence_word_ids` replaced. -/
def Input.withWordData (self : Input) (d : List F32) : Input :=
  { self with sentence_word_ids := { self.sentence_word_ids with data := d } }

/-! ## Lemmas on lists and on the loop -/

theorem length_four {α : Type} (l : List α) (h : l.length = 4) :
    ∃ a b c d, l = [a, b, c, d] := by
  match l, h with
  | [a, b, c, d], _ => exact ⟨a, b, c, d, rfl⟩

theorem set_at_length {α : Type} (d1 : List α) (x v : α) (t : List α) :
    (d1 ++ x :: t).set d1.length v = d1 ++ v :: t := by
  induction d1 with
  | nil => rfl
  | cons y ys ih => simp [ih]

theorem getElem?_at_length {α : Type} (pre : List α) (x : α) (t : List α) :
    (pre ++ x :: t)[pre.length]? = some x := by
  rw [List.getElem?_append_right (Nat.le_refl _)]
  simp

/-- One iteration on a well-formed line. -/
theorem loop_step (vocab : Vocab) (pre : List String) (line : String) (tail : List String)
    (n : Nat) (self : Input) (d1 : List F32) (x : F32) (d2 : List F32)
    (hd : self.sentence_word_ids.data = d1 ++ x :: d2) (h1 : d1.length = pre.length)
    (hline : (vocab.Split line []).length = 4) :
    Input.loop vocab (pre ++ line :: tail) (n + 1) pre.length self =
      ((Input.loop vocab (pre ++ line :: tail) n (pre.length + 1)
          (self.withWordData (d1 ++ floatOfInt (vocab.GetWid (wordOf vocab line)) :: d2))).1,
        [.bucketAt pre.length, .split line, .getWid (wordOf vocab line),
          .store pre.length (floatOfInt (vocab.GetWid (wordOf vocab line)))] ++
        (Input.loop vocab (pre ++ line :: tail) n (pre.length + 1)
          (self.withWordData (d1 ++ floatOfInt (vocab.GetWid (wordOf vocab line)) :: d2))).2) := by
  obtain ⟨a, b, c, d, habcd⟩ := length_four _ hline
  have hw : wordOf vocab line = a := by simp [wordOf, habcd]
  have hset : self.sentence_word_ids.setFlat pre.length (floatOfInt (vocab.GetWid a)) =
      some { self.sentence_word_ids with data := d1 ++ floatOfInt (vocab.GetWid a) :: d2 } := by
    unfold Tensor.setFlat
    rw [hd, ← h1, set_at_length]
    simp
  rw [Input.loop, getElem?_at_length]
  simp only [habcd, hw]
  simp [hset, Input.withWordData]

theorem withWordData_self (self : Input) (d : List F32)
    (h : self.sentence_word_ids.data = d) : self.withWordData d = self := by
  subst h
  rfl

theorem withWordData_twice (self : Input) (d e : List F32) :
    (self.withWordData d).withWordData e = self.withWordData e := rfl

/-- The loop over a run of well-formed lines: it stores their word ids and goes
on with the lines that follow. -/
theorem loop_good (vocab : Vocab) (good : List String) :
    ∀ (pre tail : List String) (m : Nat) (self : Input) (d1 dg d2 : List F32),
      self.sentence_word_ids.data = d1 ++ dg ++ d2 → d1.length = pre.length →
      dg.length = good.length → (∀ line ∈ good, (vocab.Split line []).length = 4) →
      Input.loop vocab (pre ++ good ++ tail) (good.length + m) pre.length self =
        ((Input.loop vocab (pre ++ good ++ tail) m (pre.length + good.length)
            (self.withWordData (d1 ++ wordIdsOf vocab good ++ d2))).1,
          eventsOf vocab pre.length good ++
            (Input.loop vocab (pre ++ good ++ tail) m (pre.length + good.length)
              (self.withWordData (d1 ++ wordIdsOf vocab good ++ d2))).2) := by
  induction good with
  | nil =>
    intro pre tail m self d1 dg d2 hd _ hg _
    have hdg : dg = [] := List.length_eq_zero.mp hg
    subst hdg
    have : self.withWordData (d1 ++ wordIdsOf vocab [] ++ d2) = self :=
      withWordData_self self _ (by simpa [wordIdsOf] using hd)
    rw [this]
    simp [eventsOf]
  | cons line g ih =>
    intro pre tail m self d1 dg d2 hd h1 hg hgood
    match dg, hg with
    | x :: dg', hg =>
      have hlen : dg'.length = g.length := by simpa using hg
      have hline : (vocab.Split line []).length = 4 := hgood line (List.mem_cons_self _ _)
      have hrest : ∀ l ∈ g, (vocab.Split l []).length = 4 :=
        fun l hl => hgood l (List.mem_cons_of_mem _ hl)
      have hb : pre ++ line :: g ++ tail = pre ++ line :: (g ++ tail) := by simp
      have hb2 : pre ++ line :: (g ++ tail) = (pre ++ [line]) ++ g ++ tail := by simp
      have hn : (line :: g).length + m = (g.length + m) + 1 := by simp; omega
      have hd1 : self.sentence_word_ids.data = d1 ++ x :: (dg' ++ d2) := by simpa using hd
      rw [hb, hn, loop_step vocab pre line (g ++ tail) (g.length + m) self d1 x (dg' ++ d2) hd1 h1
        hline]
      have hpl : pre.length + 1 = (pre ++ [line]).length := by simp
      rw [hb2, hpl]
      rw [ih (pre ++ [line]) tail m _ (d1 ++ [floatOfInt (vocab.GetWid (wordOf vocab line))]) dg'
        d2 (by simp [Input.withWordData]) (by simp [h1]) hlen hrest]
      have h1g : 1 + g.length = g.length + 1 := Nat.add_comm 1 g.length
      simp [withWordData_twice, wordIdsOf, eventsOf, Nat.add_assoc, h1g]

/-- The loop at a line that does not split into four fields: it throws. -/
theorem loop_bad (vocab : Vocab) (pre : List String) (bad : String) (tail : List String)
    (n : Nat) (self : Input) (hbad : (vocab.Split bad []).length ≠ 4) :
    Input.loop vocab (pre ++ bad :: tail) (n + 1) pre.length self =
      (.error (.runtime_error "input tokens must be size 4"),
        [.bucketAt pre.length, .split bad]) := by
  rw [Input.loop, getElem?_at_length]
  simp [hbad]

theorem alloc_length (config : Config) (bucket : List String) (h : Heap) :
    (Input.alloc config bucket h).1.max_sentence_length = bucket.length := rfl

theorem alloc_word_data_length (config : Config) (bucket : List String) (h : Heap) :
    (Input.alloc config bucket h).1.sentence_word_ids.data.length = bucket.length := by
  simp [Input.alloc, Heap.newTensor, numElements]

/-- The loop started by the constructor, for a bucket that begins with
well-formed lines. -/
theorem ctor_loop_good (config : Config) (vocab : Vocab) (good tail : List String) (h : Heap)
    (hgood : ∀ line ∈ good, (vocab.Split line []).length = 4) :
    ∃ d2 : List F32, d2.length = tail.length ∧
      Input.loop vocab (good ++ tail) (good ++ tail).length 0
          (Input.alloc config (good ++ tail) h).1 =
        ((Input.loop vocab (good ++ tail) tail.length good.length
            ((Input.alloc config (good ++ tail) h).1.withWordData
              (wordIdsOf vocab good ++ d2))).1,
          eventsOf vocab 0 good ++
            (Input.loop vocab (good ++ tail) tail.length good.length
              ((Input.alloc config (good ++ tail) h).1.withWordData
                (wordIdsOf vocab good ++ d2))).2) := by
  let self := (Input.alloc config (good ++ tail) h).1
  have hlen : self.sentence_word_ids.data.length = good.length + tail.length := by
    simp [self, alloc_word_data_length]
  refine ⟨self.sentence_word_ids.data.drop good.length, by simp [hlen], ?_⟩
  have hsplit : self.sentence_word_ids.data =
      [] ++ self.sentence_word_ids.data.take good.length ++
        self.sentence_word_ids.data.drop good.length := by simp
  have := loop_good vocab good [] tail tail.length self [] _ _ hsplit rfl
    (by simp [hlen]) hgood
  simpa using this

theorem ctor_result_ok (config : Config) (vocab : Vocab) (bucket : List String) (h : Heap)
    (hgood : ∀ line ∈ bucket, (vocab.Split line []).length = 4) :
    (Input.ctor config vocab bucket h).result =
      .ok ((Input.alloc config bucket h).1.withWordData (wordIdsOf vocab bucket)) := by
  obtain ⟨d2, hd2, hloop⟩ := ctor_loop_good config vocab bucket [] h hgood
  have hnil : d2 = [] := List.length_eq_zero.mp hd2
  subst hnil
  simp only [List.append_nil] at hloop
  simp [Input.ctor, alloc_length, hloop, Input.loop]

theorem ctor_trace_ok (config : Config) (vocab : Vocab) (bucket : List String) (h : Heap)
    (hgood : ∀ line ∈ bucket, (vocab.Split line []).length = 4) :
    (Input.ctor config vocab bucket h).trace = eventsOf vocab 0 bucket := by
  obtain ⟨d2, hd2, hloop⟩ := ctor_loop_good config vocab bucket [] h hgood
  have hnil : d2 = [] := List.length_eq_zero.mp hd2
  subst hnil
  simp only [List.append_nil] at hloop
  simp [Input.ctor, alloc_length, hloop, Input.loop]

theorem ctor_bad (config : Config) (vocab : Vocab) (pre : List String) (bad : String)
    (tail : List String) (h : Heap)
    (hpre : ∀ line ∈ pre, (vocab.Split line []).length = 4)
    (hbad : (vocab.Split bad []).length ≠ 4) :
    (Input.ctor config vocab (pre ++ bad :: tail) h).result =
        .error (.runtime_error "input tokens must be size 4") ∧
      (Input.ctor config vocab (pre ++ bad :: tail) h).trace =
        eventsOf vocab 0 pre ++ [.bucketAt pre.length, .split bad] := by
  obtain ⟨d2, _, hloop⟩ := ctor_loop_good config vocab pre (bad :: tail) h hpre
  have hb := loop_bad vocab pre bad tail tail.length
    ((Input.alloc config (pre ++ bad :: tail) h).1.withWordData (wordIdsOf vocab pre ++ d2)) hbad
  simp only [List.length_cons] at hloop
  rw [hb] at hloop
  unfold Input.ctor
  simp only [alloc_length]
  rw [hloop]
  exact ⟨rfl, rfl⟩

/-- A bucket with a malformed line has a first one. -/
theorem first_bad (vocab : Vocab) (bucket : List String)
    (hex : ∃ line ∈ bucket, (vocab.Split line []).length ≠ 4) :
    ∃ pre bad tail, bucket = pre ++ bad :: tail ∧
      (∀ line ∈ pre, (vocab.Split line []).length = 4) ∧ (vocab.Split bad []).length ≠ 4 := by
  induction bucket with
  | nil => simp at hex
  | cons x xs ih =>
    by_cases hx : (vocab.Split x []).length = 4
    · have hex2 : ∃ line ∈ xs, (vocab.Split line []).length ≠ 4 := by
        obtain ⟨l, hl, hne⟩ := hex
        rcases List.mem_cons.mp hl with rfl | hmem
        · exact absurd hx hne
        · exact ⟨l, hmem, hne⟩
      obtain ⟨pre, bad, tail, hb, hp, hbd⟩ := ih hex2
      refine ⟨x :: pre, bad, tail, by simp [hb], ?_, hbd⟩
      intro l hl
      rcases List.mem_cons.mp hl with rfl | hmem
      · exact hx
      · exact hp l hmem
    · exact ⟨[], x, xs, rfl, by simp, hx⟩

theorem bitLength_le (fuel : Nat) : ∀ (a k : Nat), a < 2 ^ k → bitLength fuel a ≤ k := by
  induction fuel with
  | zero => intro a k _; simp [bitLength]
  | succ f ih =>
    intro a k hk
    unfold bitLength
    by_cases ha : a = 0
    · simp [ha]
    · simp only [ha, if_false]
      match k, hk with
      | 0, hk => simp at hk; exact absurd hk ha
      | k + 1, hk =>
        have : a / 2 < 2 ^ k := by
          rw [Nat.div_lt_iff_lt_mul (by decide)]
          simpa [Nat.pow_succ] using hk
        exact Nat.succ_le_succ (ih _ _ this)

/-- An `int` below `2^24` in absolute value is converted without rounding. -/
theorem floatOfInt_exact (n : Int) (h : n.natAbs < 2 ^ 24) : floatOfInt n = .integral n := by
  have hk : bitLength n.natAbs n.natAbs ≤ 24 := bitLength_le _ _ _ h
  unfold floatOfInt roundNat24
  simp only [hk, if_true]
  by_cases hn : n < 0
  · simp only [hn, if_true]
    congr 1
    omega
  · simp only [hn, if_false]
    congr 1
    omega

theorem splitCalls_append (a b : List Event) :
    splitCalls (a ++ b) = splitCalls a ++ splitCalls b := by
  simp [splitCalls, List.filterMap_append]

theorem getWidCalls_append (a b : List Event) :
    getWidCalls (a ++ b) = getWidCalls a ++ getWidCalls b := by
  simp [getWidCalls, List.filterMap_append]

theorem stores_append (a b : List Event) : stores (a ++ b) = stores a ++ stores b := by
  simp [stores, List.filterMap_append]

theorem bucketReads_append (a b : List Event) :
    bucketReads (a ++ b) = bucketReads a ++ bucketReads b := by
  simp [bucketReads, List.filterMap_append]

theorem splitCalls_eventsOf (vocab : Vocab) (lines : List String) :
    ∀ i, splitCalls (eventsOf vocab i lines) = lines := by
  induction lines with
  | nil => intro i; rfl
  | cons l ls ih =>
    intro i
    rw [eventsOf, splitCalls_append, ih]
    rfl

theorem getWidCalls_eventsOf (vocab : Vocab) (lines : List String) :
    ∀ i, getWidCalls (eventsOf vocab i lines) = lines.map (wordOf vocab) := by
  induction lines with
  | nil => intro i; rfl
  | cons l ls ih =>
    intro i
    rw [eventsOf, getWidCalls_append, ih]
    rfl

theorem stores_eventsOf (vocab : Vocab) (lines : List String) :
    ∀ i, (stores (eventsOf vocab i lines)).map Prod.fst = List.range' i lines.length := by
  induction lines with
  | nil => intro i; rfl
  | cons l ls ih =>
    intro i
    rw [eventsOf, stores_append, List.map_append, ih]
    rfl

theorem bucketReads_eventsOf (vocab : Vocab) (lines : List String) :
    ∀ i, bucketReads (eventsOf vocab i lines) = List.range' i lines.length := by
  induction lines with
  | nil => intro i; rfl
  | cons l ls ih =>
    intro i
    rw [eventsOf, bucketReads_append, ih]
    rfl

theorem first_token (vocab : Vocab) (line : String)
    (h : (vocab.Split line []).length = 4) :
    (vocab.Split line [])[0]? = some (wordOf vocab line) := by
  obtain ⟨a, b, c, d, habcd⟩ := length_four _ h
  simp [wordOf, habcd]

theorem ok_imp_good (config : Config) (vocab : Vocab) (bucket : List String) (h : Heap)
    (inp : Input) (hok : (Input.ctor config vocab bucket h).result = .ok inp) :
    ∀ line ∈ bucket, (vocab.Split line []).length = 4 := by
  by_contra hne
  have hex : ∃ line ∈ bucket, (vocab.Split line []).length ≠ 4 := by
    simpa using hne
  obtain ⟨pre, bad, tail, hb, hp, hbd⟩ := first_bad vocab bucket hex
  subst hb
  rw [(ctor_bad config vocab pre bad tail h hp hbd).1] at hok
  cases hok

/-! ## The properties -/

/-- C1: for a bucket whose lines all split into exactly four fields the
constructor succeeds, `sentence_word_ids` has one element per line, and the
element at index `i` is the float conversion of `GetWid` of the first field of
line `i` (the id itself when it is below `2^24` in absolute value), so the ids
appear in token order. -/
theorem word_ids_are_GetWid (config : Config) (vocab : Vocab) (bucket : List String) (h : Heap)
    (hfour : ∀ line ∈ bucket, (vocab.Split line []).length = 4) :
    ∃ inp, (Input.ctor config vocab bucket h).result = .ok inp ∧
      inp.sentence_word_ids.data.length = bucket.length ∧
      ∀ (i : Nat) (hi : i < bucket.length), ∃ word,
        (vocab.Split bucket[i] [])[0]? = some word ∧
          inp.sentence_word_ids.data[i]? = some (floatOfInt (vocab.GetWid word)) ∧
          ((vocab.GetWid word).natAbs < 2 ^ 24 →
            inp.sentence_word_ids.data[i]? = some (.integral (vocab.GetWid word))) := by
  refine ⟨_, ctor_result_ok config vocab bucket h hfour, by simp [Input.withWordData, wordIdsOf],
    ?_⟩
  intro i hi
  have hline := hfour bucket[i] (List.getElem_mem _)
  have hget : ((Input.alloc config bucket h).1.withWordData
      (wordIdsOf vocab bucket)).sentence_word_ids.data[i]? =
        some (floatOfInt (vocab.GetWid (wordOf vocab bucket[i]))) := by
    simp [Input.withWordData, wordIdsOf, List.getElem?_map, List.getElem?_eq_getElem hi]
  refine ⟨wordOf vocab bucket[i], first_token vocab _ hline, hget, ?_⟩
  intro hsmall
  rw [hget, floatOfInt_exact _ hsmall]

/-- C1, the scenario: with `dog` mapped to 42 and `barks` to 7, the bucket
`["dog NN B-NP O", "barks VBZ I-VP O"]` is encoded with word ids `[[42, 7]]`. -/
theorem word_ids_are_GetWid_witness :
    (∀ line ∈ ["dog NN B-NP O", "barks VBZ I-VP O"],
        ((sampleVocab 0).Split line []).length = 4) ∧
      (∃ inp, (Input.ctor sampleConfig (sampleVocab 0) ["dog NN B-NP O", "barks VBZ I-VP O"]
            emptyHeap).result = .ok inp ∧
          inp.sentence_word_ids.data.length = 2 ∧
          ∀ (i : Nat) (hi : i < 2), ∃ word,
            ((sampleVocab 0).Split ["dog NN B-NP O", "barks VBZ I-VP O"][i] [])[0]? = some word ∧
              inp.sentence_word_ids.data[i]? = some (floatOfInt ((sampleVocab 0).GetWid word)) ∧
              (((sampleVocab 0).GetWid word).natAbs < 2 ^ 24 →
                inp.sentence_word_ids.data[i]? =
                  some (.integral ((sampleVocab 0).GetWid word)))) ∧
      (Input.ctor sampleConfig (sampleVocab 0) ["dog NN B-NP O", "barks VBZ I-VP O"]
          emptyHeap).result.toOption.map (fun inp =>
            (inp.sentence_word_ids.shape, inp.sentence_word_ids.data)) =
        some ([1, 2], [.integral 42, .integral 7]) :=
  ⟨by decide,
    word_ids_are_GetWid sampleConfig (sampleVocab 0) ["dog NN B-NP O", "barks VBZ I-VP O"]
      emptyHeap (by decide),
    by decide⟩

/-- C2: for a bucket with a line that does not split into exactly four fields
the constructor ends with `runtime_error("input tokens must be size 4")` and no
object is produced. -/
theorem malformed_line_throws (config : Config) (vocab : Vocab) (bucket : List String)
    (h : Heap) (hbad : ∃ line ∈ bucket, (vocab.Split line []).length ≠ 4) :
    (Input.ctor config vocab bucket h).result =
        .error (.runtime_error "input tokens must be size 4") ∧
      ∀ inp, (Input.ctor config vocab bucket h).result ≠ .ok inp := by
  obtain ⟨pre, bad, tail, hb, hp, hbd⟩ := first_bad vocab bucket hbad
  subst hb
  have hres := (ctor_bad config vocab pre bad tail h hp hbd).1
  refine ⟨hres, ?_⟩
  intro inp hok
  rw [hres] at hok
  cases hok

/-- C2, the scenario: the bucket `["dog NN"]` has a line of two fields and the
constructor throws. -/
theorem malformed_line_throws_witness :
    (∃ line ∈ ["dog NN"], ((sampleVocab 0).Split line []).length ≠ 4) ∧
      (Input.ctor sampleConfig (sampleVocab 0) ["dog NN"] emptyHeap).result =
        .error (.runtime_error "input tokens must be size 4") ∧
      ∀ inp, (Input.ctor sampleConfig (sampleVocab 0) ["dog NN"] emptyHeap).result ≠ .ok inp :=
  ⟨⟨"dog NN", by decide, by decide⟩,
    malformed_line_throws sampleConfig (sampleVocab 0) ["dog NN"] emptyHeap
      ⟨"dog NN", by decide, by decide⟩⟩

/-- C3: for a bucket of `L ≥ 1` lines that all split into exactly four fields,
and any configuration, the four tensors have the shapes `[1, L]`,
`[1, L, W]`, `[1, L]` and `[1, L, E]`, where `L` is the number of lines, `W`
the word length and `E` the etc dimension of the configuration; each buffer
holds as many floats as its shape says. -/
theorem buffer_shapes (config : Config) (vocab : Vocab) (bucket : List String) (h : Heap)
    (hL : 1 ≤ bucket.length)
    (hfour : ∀ line ∈ bucket, (vocab.Split line []).length = 4) :
    ∃ inp, (Input.ctor config vocab bucket h).result = .ok inp ∧
      inp.max_sentence_length = bucket.length ∧
      inp.sentence_word_ids.shape = [1, bucket.length] ∧
      inp.sentence_wordchr_ids.shape = [1, bucket.length, config.GetWordLength] ∧
      inp.sentence_pos_ids.shape = [1, bucket.length] ∧
      inp.sentence_etcs.shape = [1, bucket.length, config.GetEtcDim] ∧
      inp.sentence_word_ids.data.length = numElements inp.sentence_word_ids.shape ∧
      inp.sentence_wordchr_ids.data.length = numElements inp.sentence_wordchr_ids.shape ∧
      inp.sentence_pos_ids.data.length = numElements inp.sentence_pos_ids.shape ∧
      inp.sentence_etcs.data.length = numElements inp.sentence_etcs.shape := by
  have _ := hL
  refine ⟨_, ctor_result_ok config vocab bucket h hfour, ?_⟩
  simp [Input.withWordData, Input.alloc, Heap.newTensor, wordIdsOf, numElements]

/-- C3 at the bucket of the scenario, two lines, with word length 3 and etc
dimension 2. -/
theorem buffer_shapes_witness :
    1 ≤ ["dog NN B-NP O", "barks VBZ I-VP O"].length ∧
      (∀ line ∈ ["dog NN B-NP O", "barks VBZ I-VP O"],
        ((sampleVocab 0).Split line []).length = 4) ∧
      ∃ inp, (Input.ctor sampleConfig (sampleVocab 0) ["dog NN B-NP O", "barks VBZ I-VP O"]
            emptyHeap).result = .ok inp ∧
        inp.max_sentence_length = 2 ∧
        inp.sentence_word_ids.shape = [1, 2] ∧
        inp.sentence_wordchr_ids.shape = [1, 2, 3] ∧
        inp.sentence_pos_ids.shape = [1, 2] ∧
        inp.sentence_etcs.shape = [1, 2, 2] ∧
        inp.sentence_word_ids.data.length = numElements inp.sentence_word_ids.shape ∧
        inp.sentence_wordchr_ids.data.length = numElements inp.sentence_wordchr_ids.shape ∧
        inp.sentence_pos_ids.data.length = numElements inp.sentence_pos_ids.shape ∧
        inp.sentence_etcs.data.length = numElements inp.sentence_etcs.shape :=
  ⟨by decide, by decide,
    buffer_shapes sampleConfig (sampleVocab 0) ["dog NN B-NP O", "barks VBZ I-VP O"] emptyHeap
      (by decide) (by decide)⟩

/-- C4: the four-field check is the only thing that makes the constructor fail.
For every `Split` and every `GetWid`, whatever integers `GetWid` returns: when
all lines split into exactly four fields the constructor succeeds, and it ends
with an error if and only if some line has a field count other than four. -/
theorem fails_iff_malformed (config : Config) (split : String → List String → List String)
    (getWid : String → Int) (bucket : List String) (h : Heap) :
    ((∀ line ∈ bucket, (split line []).length = 4) →
        ∃ inp, (Input.ctor config ⟨split, getWid⟩ bucket h).result = .ok inp) ∧
      ((∃ e, (Input.ctor config ⟨split, getWid⟩ bucket h).result = .error e) ↔
        ∃ line ∈ bucket, (split line []).length ≠ 4) := by
  refine ⟨fun hfour => ⟨_, ctor_result_ok config ⟨split, getWid⟩ bucket h hfour⟩, ?_, ?_⟩
  · rintro ⟨e, he⟩
    by_contra hne
    have hfour : ∀ line ∈ bucket, (split line []).length = 4 := by
      simpa using hne
    rw [ctor_result_ok config ⟨split, getWid⟩ bucket h hfour] at he
    cases he
  · intro hbad
    obtain ⟨pre, bad, tail, hb, hp, hbd⟩ := first_bad ⟨split, getWid⟩ bucket hbad
    subst hb
    exact ⟨_, (ctor_bad config ⟨split, getWid⟩ pre bad tail h hp hbd).1⟩

/-- Deleting the four tensors of a completely constructed object gives back
the live set the constructor started from: the path through `~Input` releases
what the constructor allocated. -/
theorem ctor_then_dtor_live (config : Config) (vocab : Vocab) (bucket : List String) (h : Heap)
    (inp : Input) (hok : (Input.ctor config vocab bucket h).result = .ok inp) :
    (inp.dtor (Input.ctor config vocab bucket h).heap).live = h.live := by
  have hfour := ok_imp_good config vocab bucket h inp hok
  rw [ctor_result_ok config vocab bucket h hfour] at hok
  cases hok
  have e1 : h.next + 1 + 1 + 1 ≠ h.next := by omega
  have e2 : h.next + 1 + 1 ≠ h.next := by omega
  have e3 : h.next + 1 + 1 + 1 ≠ h.next + 1 := by omega
  have e4 : h.next + 1 + 1 ≠ h.next + 1 := by omega
  have e5 : h.next + 1 + 1 + 1 ≠ h.next + 1 + 1 := by omega
  simp [Input.dtor, Input.ctor, Input.alloc, Input.withWordData, Heap.newTensor, Heap.delete,
    List.erase_cons, e1, e2, e3, e4, e5]

/-- Whatever the outcome of the constructor, the four tensors it allocated are
live when it returns or throws; in particular they stay live after a throw. -/
theorem failed_ctor_live (config : Config) (vocab : Vocab) (bucket : List String) (h : Heap) :
    (Input.ctor config vocab bucket h).heap.live =
      [h.next + 3, h.next + 2, h.next + 1, h.next] ++ h.live := by
  simp [Input.ctor, Input.alloc, Heap.newTensor]

/-- C5: at the bucket `["dog NN"]`, started on a heap without live tensors, the
constructor throws and the four tensors it allocated are still live afterwards:
the live set is not the one before the call. -/
theorem failed_ctor_leaks :
    (Input.ctor sampleConfig (sampleVocab 0) ["dog NN"] emptyHeap).result =
        .error (.runtime_error "input tokens must be size 4") ∧
      emptyHeap.live = [] ∧
      (Input.ctor sampleConfig (sampleVocab 0) ["dog NN"] emptyHeap).heap.live = [3, 2, 1, 0] ∧
      (Input.ctor sampleConfig (sampleVocab 0) ["dog NN"] emptyHeap).heap.live ≠
        emptyHeap.live := by
  decide

/-- C6: for the empty bucket the constructor succeeds without any event (no
`Split`, no `GetWid`, no store), the recorded sentence length is 0, the shapes
are `[1, 0]`, `[1, 0, W]`, `[1, 0]` and `[1, 0, E]`, and the four buffers are
empty. -/
theorem empty_bucket (config : Config) (vocab : Vocab) (h : Heap) :
    ∃ inp, (Input.ctor config vocab [] h).result = .ok inp ∧
      (Input.ctor config vocab [] h).trace = [] ∧
      inp.max_sentence_length = 0 ∧
      inp.sentence_word_ids.shape = [1, 0] ∧
      inp.sentence_wordchr_ids.shape = [1, 0, config.GetWordLength] ∧
      inp.sentence_pos_ids.shape = [1, 0] ∧
      inp.sentence_etcs.shape = [1, 0, config.GetEtcDim] ∧
      inp.sentence_word_ids.data = [] ∧
      inp.sentence_wordchr_ids.data = [] ∧
      inp.sentence_pos_ids.data = [] ∧
      inp.sentence_etcs.data = [] := by
  refine ⟨_, rfl, rfl, ?_⟩
  simp [Input.ctor, Input.loop, Input.alloc, Heap.newTensor, numElements]

/-- C7: when the constructor succeeds, `sentence_wordchr_ids`, `sentence_pos_ids`
and `sentence_etcs` are, shape and contents, what the allocations of lines
14-18 produced: the loop wrote none of their elements. They are the same for
any other vocabulary and any other bucket of the same length on which the
constructor succeeds. -/
theorem only_word_ids_written (config : Config) (vocab : Vocab) (bucket : List String)
    (h : Heap) (inp : Input) (hok : (Input.ctor config vocab bucket h).result = .ok inp) :
    inp.sentence_wordchr_ids = (Input.alloc config bucket h).1.sentence_wordchr_ids ∧
      inp.sentence_pos_ids = (Input.alloc config bucket h).1.sentence_pos_ids ∧
      inp.sentence_etcs = (Input.alloc config bucket h).1.sentence_etcs ∧
      ∀ (vocab2 : Vocab) (bucket2 : List String) (inp2 : Input),
        bucket2.length = bucket.length →
        (Input.ctor config vocab2 bucket2 h).result = .ok inp2 →
        inp2.sentence_wordchr_ids = inp.sentence_wordchr_ids ∧
          inp2.sentence_pos_ids = inp.sentence_pos_ids ∧
          inp2.sentence_etcs = inp.sentence_etcs := by
  have hfour := ok_imp_good config vocab bucket h inp hok
  rw [ctor_result_ok config vocab bucket h hfour] at hok
  cases hok
  refine ⟨rfl, rfl, rfl, ?_⟩
  intro vocab2 bucket2 inp2 hlen hok2
  have hfour2 := ok_imp_good config vocab2 bucket2 h inp2 hok2
  rw [ctor_result_ok config vocab2 bucket2 h hfour2] at hok2
  cases hok2
  simp [Input.withWordData, Input.alloc, hlen]

/-- C7 at the bucket of the scenario: the three buffers hold the memory
contents the allocations found. -/
theorem only_word_ids_written_witness :
    ∃ inp, (Input.ctor sampleConfig (sampleVocab 0) ["dog NN B-NP O", "barks VBZ I-VP O"]
          emptyHeap).result = .ok inp ∧
      inp.sentence_pos_ids.data = [.other 0xDEAD, .other 0xDEAD] ∧
      (inp.sentence_wordchr_ids =
          (Input.alloc sampleConfig ["dog NN B-NP O", "barks VBZ I-VP O"]
            emptyHeap).1.sentence_wordchr_ids ∧
        inp.sentence_pos_ids =
          (Input.alloc sampleConfig ["dog NN B-NP O", "barks VBZ I-VP O"]
            emptyHeap).1.sentence_pos_ids ∧
        inp.sentence_etcs =
          (Input.alloc sampleConfig ["dog NN B-NP O", "barks VBZ I-VP O"]
            emptyHeap).1.sentence_etcs ∧
        ∀ (vocab2 : Vocab) (bucket2 : List String) (inp2 : Input),
          bucket2.length = ["dog NN B-NP O", "barks VBZ I-VP O"].length →
          (Input.ctor sampleConfig vocab2 bucket2 emptyHeap).result = .ok inp2 →
          inp2.sentence_wordchr_ids = inp.sentence_wordchr_ids ∧
            inp2.sentence_pos_ids = inp.sentence_pos_ids ∧
            inp2.sentence_etcs = inp.sentence_etcs) :=
  ⟨(Input.alloc sampleConfig ["dog NN B-NP O", "barks VBZ I-VP O"] emptyHeap).1.withWordData
      [.integral 42, .integral 7],
    by decide, by decide,
    only_word_ids_written sampleConfig (sampleVocab 0) ["dog NN B-NP O", "barks VBZ I-VP O"]
      emptyHeap _ (by decide)⟩

theorem forall₂_wordOf (vocab : Vocab) (pre : List String)
    (hpre : ∀ line ∈ pre, (vocab.Split line []).length = 4) :
    List.Forall₂ (fun word line => (vocab.Split line [])[0]? = some word)
      (pre.map (wordOf vocab)) pre := by
  induction pre with
  | nil => exact List.Forall₂.nil
  | cons l ls ih =>
    exact List.Forall₂.cons (first_token vocab l (hpre l (List.mem_cons_self _ _)))
      (ih (fun x hx => hpre x (List.mem_cons_of_mem _ hx)))

theorem range'_zero (n : Nat) : List.range' 0 n = List.range n := by
  rw [List.range_eq_range']

/-- The calls and accesses of a run that meets a malformed line after the
well-formed lines `pre`. -/
theorem ctor_bad_calls (config : Config) (vocab : Vocab) (pre : List String) (bad : String)
    (tail : List String) (h : Heap)
    (hpre : ∀ line ∈ pre, (vocab.Split line []).length = 4)
    (hbad : (vocab.Split bad []).length ≠ 4) :
    splitCalls (Input.ctor config vocab (pre ++ bad :: tail) h).trace = pre ++ [bad] ∧
      getWidCalls (Input.ctor config vocab (pre ++ bad :: tail) h).trace =
        pre.map (wordOf vocab) ∧
      bucketReads (Input.ctor config vocab (pre ++ bad :: tail) h).trace =
        List.range (pre.length + 1) ∧
      (stores (Input.ctor config vocab (pre ++ bad :: tail) h).trace).map Prod.fst =
        List.range pre.length := by
  rw [(ctor_bad config vocab pre bad tail h hpre hbad).2]
  refine ⟨?_, ?_, ?_, ?_⟩
  · rw [splitCalls_append, splitCalls_eventsOf]; rfl
  · rw [getWidCalls_append, getWidCalls_eventsOf]; simp [getWidCalls]
  · rw [bucketReads_append, bucketReads_eventsOf, range'_zero, List.range_succ]; rfl
  · rw [stores_append, List.map_append, stores_eventsOf, range'_zero]
    simp [stores]

theorem split_at_index {α : Type} (l : List α) (k : Nat) (hk : k < l.length) :
    l = l.take k ++ l[k] :: l.drop (k + 1) := by
  rw [← List.drop_eq_getElem_cons hk, List.take_append_drop]

theorem take_succ_of_split {α : Type} (pre : List α) (x : α) (t : List α) :
    (pre ++ x :: t).take (pre.length + 1) = pre ++ [x] := by
  induction pre with
  | nil => simp
  | cons y ys ih => simpa using ih

theorem mem_take_good (vocab : Vocab) (bucket : List String) (k : Nat)
    (hmin : ∀ (j : Nat) (hj : j < bucket.length), j < k →
      (vocab.Split bucket[j] []).length = 4) :
    ∀ line ∈ bucket.take k, (vocab.Split line []).length = 4 := by
  intro line hmem
  obtain ⟨j, hj, rfl⟩ := List.getElem_of_mem hmem
  have hjk : j < k := by
    have := hj
    simp at this
    omega
  have hjl : j < bucket.length := by
    have := hj
    simp at this
    omega
  have := hmin j hjl hjk
  simpa [List.getElem_take] using this

/-- C8: let `k` be the smallest index whose line does not split into exactly
four fields. Then the constructor throws the `runtime_error`; `Split` was
called on the lines `0..k`, in order, and on nothing else; `GetWid` was called
on the first fields of the lines `0..k-1`, in order, and on nothing else; the
bucket was read at `0..k` and stores went to `0..k-1`; and a bucket that agrees
on the lines `0..k` gives the same outcome and the same events, whatever
follows line `k`. -/
theorem stops_at_first_malformed (config : Config) (vocab : Vocab) (bucket : List String)
    (h : Heap) (k : Nat) (hk : k < bucket.length)
    (hbad : (vocab.Split bucket[k] []).length ≠ 4)
    (hmin : ∀ (j : Nat) (hj : j < bucket.length), j < k →
      (vocab.Split bucket[j] []).length = 4) :
    (Input.ctor config vocab bucket h).result =
        .error (.runtime_error "input tokens must be size 4") ∧
      splitCalls (Input.ctor config vocab bucket h).trace = bucket.take (k + 1) ∧
      List.Forall₂ (fun word line => (vocab.Split line [])[0]? = some word)
        (getWidCalls (Input.ctor config vocab bucket h).trace) (bucket.take k) ∧
      bucketReads (Input.ctor config vocab bucket h).trace = List.range (k + 1) ∧
      (stores (Input.ctor config vocab bucket h).trace).map Prod.fst = List.range k ∧
      ∀ bucket2 : List String, bucket2.take (k + 1) = bucket.take (k + 1) →
        (Input.ctor config vocab bucket2 h).result = (Input.ctor config vocab bucket h).result ∧
          (Input.ctor config vocab bucket2 h).trace = (Input.ctor config vocab bucket h).trace := by
  have hpre := mem_take_good vocab bucket k hmin
  have hlen : (bucket.take k).length = k := by
    simp; omega
  have hdec := split_at_index bucket k hk
  have hb := ctor_bad config vocab (bucket.take k) bucket[k] (bucket.drop (k + 1)) h hpre hbad
  have hc := ctor_bad_calls config vocab (bucket.take k) bucket[k] (bucket.drop (k + 1)) h hpre
    hbad
  rw [← hdec, hlen] at hb hc
  have htake : bucket.take (k + 1) = bucket.take k ++ [bucket[k]] := by
    have := take_succ_of_split (bucket.take k) bucket[k] (bucket.drop (k + 1))
    rw [← hdec, hlen] at this
    exact this
  refine ⟨hb.1, ?_, ?_, hc.2.2.1, hc.2.2.2, ?_⟩
  · rw [hc.1, htake]
  · rw [hc.2.1]
    exact forall₂_wordOf vocab _ hpre
  · intro bucket2 h2
    have hdec2 : bucket2 = bucket.take k ++ bucket[k] :: bucket2.drop (k + 1) := by
      have := (List.take_append_drop (k + 1) bucket2).symm
      rw [h2, htake] at this
      simp only [List.append_assoc, List.singleton_append] at this
      exact this
    have hb2 := ctor_bad config vocab (bucket.take k) bucket[k] (bucket2.drop (k + 1)) h hpre
      hbad
    rw [← hdec2, hlen] at hb2
    exact ⟨hb2.1.trans hb.1.symm, hb2.2.trans hb.2.symm⟩

/-- C8 at a bucket whose line 1 is malformed and is followed by one more
line. -/
theorem stops_at_first_malformed_witness :
    (1 < ["dog NN B-NP O", "barks VBZ", "cat NN B-NP O"].length) ∧
      splitCalls (Input.ctor sampleConfig (sampleVocab 0)
        ["dog NN B-NP O", "barks VBZ", "cat NN B-NP O"] emptyHeap).trace =
          ["dog NN B-NP O", "barks VBZ"] ∧
      getWidCalls (Input.ctor sampleConfig (sampleVocab 0)
        ["dog NN B-NP O", "barks VBZ", "cat NN B-NP O"] emptyHeap).trace = ["dog"] ∧
      ((Input.ctor sampleConfig (sampleVocab 0)
            ["dog NN B-NP O", "barks VBZ", "cat NN B-NP O"] emptyHeap).result =
          .error (.runtime_error "input tokens must be size 4") ∧
        splitCalls (Input.ctor sampleConfig (sampleVocab 0)
            ["dog NN B-NP O", "barks VBZ", "cat NN B-NP O"] emptyHeap).trace =
          ["dog NN B-NP O", "barks VBZ", "cat NN B-NP O"].take (1 + 1) ∧
        List.Forall₂ (fun word line => ((sampleVocab 0).Split line [])[0]? = some word)
          (getWidCalls (Input.ctor sampleConfig (sampleVocab 0)
            ["dog NN B-NP O", "barks VBZ", "cat NN B-NP O"] emptyHeap).trace)
          (["dog NN B-NP O", "barks VBZ", "cat NN B-NP O"].take 1) ∧
        bucketReads (Input.ctor sampleConfig (sampleVocab 0)
            ["dog NN B-NP O", "barks VBZ", "cat NN B-NP O"] emptyHeap).trace =
          List.range (1 + 1) ∧
        (stores (Input.ctor sampleConfig (sampleVocab 0)
            ["dog NN B-NP O", "barks VBZ", "cat NN B-NP O"] emptyHeap).trace).map Prod.fst =
          List.range 1 ∧
        ∀ bucket2 : List String,
          bucket2.take (1 + 1) = ["dog NN B-NP O", "barks VBZ", "cat NN B-NP O"].take (1 + 1) →
          (Input.ctor sampleConfig (sampleVocab 0) bucket2 emptyHeap).result =
              (Input.ctor sampleConfig (sampleVocab 0)
                ["dog NN B-NP O", "barks VBZ", "cat NN B-NP O"] emptyHeap).result ∧
            (Input.ctor sampleConfig (sampleVocab 0) bucket2 emptyHeap).trace =
              (Input.ctor sampleConfig (sampleVocab 0)
                ["dog NN B-NP O", "barks VBZ", "cat NN B-NP O"] emptyHeap).trace) :=
  ⟨by decide, by decide, by decide,
    stops_at_first_malformed sampleConfig (sampleVocab 0)
      ["dog NN B-NP O", "barks VBZ", "cat NN B-NP O"] emptyHeap 1 (by decide) (by decide)
      (by
        intro j hj hj1
        have hj0 : j = 0 := by omega
        subst hj0
        show ((sampleVocab 0).Split "dog NN B-NP O" []).length = 4
        decide)⟩

/-- C9: no run of the constructor reaches an out-of-range access: it never
ends with `out_of_range`, for any bucket, vocabulary and configuration. The
flat size of `sentence_word_ids` is `1 * L = L`, and every index at which the
bucket is read or `sentence_word_ids` is written is below `L`. -/
theorem indices_in_bounds (config : Config) (vocab : Vocab) (bucket : List String) (h : Heap) :
    (Input.ctor config vocab bucket h).result ≠ .error .out_of_range ∧
      numElements (Input.alloc config bucket h).1.sentence_word_ids.shape = bucket.length ∧
      (Input.alloc config bucket h).1.sentence_word_ids.data.length = bucket.length ∧
      (∀ i ∈ bucketReads (Input.ctor config vocab bucket h).trace, i < bucket.length) ∧
      (∀ p ∈ stores (Input.ctor config vocab bucket h).trace,
        p.1 < bucket.length ∧
          p.1 < (Input.alloc config bucket h).1.sentence_word_ids.data.length) := by
  have hsize := alloc_word_data_length config bucket h
  have hnum : numElements (Input.alloc config bucket h).1.sentence_word_ids.shape =
      bucket.length := by
    simp [Input.alloc, Heap.newTensor, numElements]
  rw [hsize]
  by_cases hfour : ∀ line ∈ bucket, (vocab.Split line []).length = 4
  · rw [ctor_result_ok config vocab bucket h hfour, ctor_trace_ok config vocab bucket h hfour]
    refine ⟨(fun hc => by cases hc), hnum, rfl, ?_, ?_⟩
    · intro i hi
      rw [bucketReads_eventsOf, range'_zero] at hi
      exact List.mem_range.mp hi
    · intro p hp
      have hm : p.1 ∈ (stores (eventsOf vocab 0 bucket)).map Prod.fst :=
        List.mem_map_of_mem _ hp
      rw [stores_eventsOf, range'_zero] at hm
      exact ⟨List.mem_range.mp hm, List.mem_range.mp hm⟩
  · have hex : ∃ line ∈ bucket, (vocab.Split line []).length ≠ 4 := by
      simpa using hfour
    obtain ⟨pre, bad, tail, hb, hp, hbd⟩ := first_bad vocab bucket hex
    subst hb
    have hc := ctor_bad_calls config vocab pre bad tail h hp hbd
    rw [(ctor_bad config vocab pre bad tail h hp hbd).1]
    refine ⟨(fun hc => by cases hc), hnum, rfl, ?_, ?_⟩
    · intro i hi
      rw [hc.2.2.1] at hi
      have := List.mem_range.mp hi
      simp
      omega
    · intro p hp
      have hm : p.1 ∈ (stores (Input.ctor config vocab (pre ++ bad :: tail) h).trace).map
          Prod.fst := List.mem_map_of_mem _ hp
      rw [hc.2.2.2] at hm
      have := List.mem_range.mp hm
      simp
      omega

theorem wordIdsOf_congr (vocab : Vocab) (b1 b2 : List String) (hlen : b1.length = b2.length)
    (hsame : ∀ (i : Nat) (h1 : i < b1.length) (h2 : i < b2.length),
      (vocab.Split b1[i] [])[0]? = (vocab.Split b2[i] [])[0]?) :
    wordIdsOf vocab b1 = wordIdsOf vocab b2 := by
  apply List.ext_getElem
  · simp [wordIdsOf, hlen]
  · intro n h1 h2
    have h1b : n < b1.length := by simpa [wordIdsOf] using h1
    have h2b : n < b2.length := by simpa [wordIdsOf] using h2
    simp [wordIdsOf, wordOf, hsame n h1b h2b]

/-- C10: two buckets of the same length, whose lines at every index both split
into exactly four fields and have the same first field, are encoded to the same
object: the same sentence length and the same four tensors, whatever the other
three fields of the lines are (same configuration, vocabulary and heap). -/
theorem depends_only_on_words (config : Config) (vocab : Vocab) (b1 b2 : List String)
    (h : Heap) (hlen : b1.length = b2.length)
    (hsame : ∀ (i : Nat) (h1 : i < b1.length) (h2 : i < b2.length),
      (vocab.Split b1[i] []).length = 4 ∧ (vocab.Split b2[i] []).length = 4 ∧
        (vocab.Split b1[i] [])[0]? = (vocab.Split b2[i] [])[0]?) :
    ∃ inp, (Input.ctor config vocab b1 h).result = .ok inp ∧
      (Input.ctor config vocab b2 h).result = .ok inp := by
  have hfour1 : ∀ line ∈ b1, (vocab.Split line []).length = 4 := by
    intro line hmem
    obtain ⟨i, hi, rfl⟩ := List.getElem_of_mem hmem
    exact (hsame i hi (hlen ▸ hi)).1
  have hfour2 : ∀ line ∈ b2, (vocab.Split line []).length = 4 := by
    intro line hmem
    obtain ⟨i, hi, rfl⟩ := List.getElem_of_mem hmem
    exact (hsame i (hlen ▸ hi) hi).2.1
  have hids := wordIdsOf_congr vocab b1 b2 hlen (fun i h1 h2 => (hsame i h1 h2).2.2)
  have halloc : (Input.alloc config b1 h).1 = (Input.alloc config b2 h).1 := by
    simp [Input.alloc, hlen]
  refine ⟨_, ctor_result_ok config vocab b1 h hfour1, ?_⟩
  rw [ctor_result_ok config vocab b2 h hfour2, hids, halloc]

/-- C10 at two buckets with the words `dog`, `barks` and different other
fields. -/
theorem depends_only_on_words_witness :
    ["dog NN B-NP O", "barks VBZ I-VP O"].length = ["dog VB I-VP B", "barks NN O I"].length ∧
      (Input.ctor sampleConfig (sampleVocab 0) ["dog NN B-NP O", "barks VBZ I-VP O"]
          emptyHeap).result =
        (Input.ctor sampleConfig (sampleVocab 0) ["dog VB I-VP B", "barks NN O I"]
          emptyHeap).result ∧
      ∃ inp, (Input.ctor sampleConfig (sampleVocab 0) ["dog NN B-NP O", "barks VBZ I-VP O"]
            emptyHeap).result = .ok inp ∧
        (Input.ctor sampleConfig (sampleVocab 0) ["dog VB I-VP B", "barks NN O I"]
          emptyHeap).result = .ok inp :=
  ⟨by decide, by decide,
    depends_only_on_words sampleConfig (sampleVocab 0) ["dog NN B-NP O", "barks VBZ I-VP O"]
      ["dog VB I-VP B", "barks NN O I"] emptyHeap (by decide)
      (by
        intro i h1 h2
        match i, h1, h2 with
        | 0, _, _ =>
          show ((sampleVocab 0).Split "dog NN B-NP O" []).length = 4 ∧
            ((sampleVocab 0).Split "dog VB I-VP B" []).length = 4 ∧
            ((sampleVocab 0).Split "dog NN B-NP O" [])[0]? =
              ((sampleVocab 0).Split "dog VB I-VP B" [])[0]?
          decide
        | 1, _, _ =>
          show ((sampleVocab 0).Split "barks VBZ I-VP O" []).length = 4 ∧
            ((sampleVocab 0).Split "barks NN O I" []).length = 4 ∧
            ((sampleVocab 0).Split "barks VBZ I-VP O" [])[0]? =
              ((sampleVocab 0).Split "barks NN O I" [])[0]?
          decide)⟩

end Etagger
